import Mathlib

/-!
Verification of the hash-lock transaction builder (`src/main.rs`).

The development shallowly embeds the program and the parts of its
dependencies (`hex`, `rust-bitcoin`) that the program exercises:

* bytes are `Nat` values below 256, byte strings are `List Nat`;
* machine integers are `Nat` with explicit `% 2 ^ w` where overflow matters;
* a Rust panic (a failed `unwrap`, an out-of-bounds index, a checked
  subtraction overflow) is represented by `Except.error` with a `Panic`
  value naming the abort site — the Rust code has no error type of its
  own and aborts the process in these situations.
-/

deriving instance DecidableEq for Except

set_option maxRecDepth 400000

/-- Error-free byte strings of the embedding: each element is a byte
value (a `Nat` below 256). -/
abbrev Bytes := List Nat

/-- Ways in which the Rust program aborts the process.  These are panics
(`unwrap` on `None`/`Err`, slice indexing out of bounds, debug-mode
integer-subtraction overflow), not returned errors: the source has no
error type and no `Result`-returning construction function. -/
inductive Panic where
  /-- A failed `hex::decode(..).unwrap()` (odd length or non-hex digit). -/
  | hexDecodeError
  /-- A failed `Option::unwrap` on `None` (here: `Address::from_script`). -/
  | unwrapNone
  /-- Out-of-bounds slice indexing (here: `prev_transaction.output[0]`). -/
  | indexOutOfBounds
  /-- Debug-mode `u64` subtraction overflow (`value - amount_to_spend`). -/
  | subOverflow
deriving DecidableEq, Repr

/-- Value of a hex digit, per the `hex` crate: `0-9`, `a-f` and `A-F` are
accepted, everything else is an invalid character. -/
def hexDigitVal (c : Char) : Option Nat :=
  if '0' ≤ c ∧ c ≤ '9' then some (c.toNat - 48)
  else if 'a' ≤ c ∧ c ≤ 'f' then some (c.toNat - 87)
  else if 'A' ≤ c ∧ c ≤ 'F' then some (c.toNat - 55)
  else none

/-- Decoding of a list of hex characters two at a time; `none` on an odd
number of characters or an invalid digit, mirroring `hex::decode`. -/
def hexDecodeChars : List Char → Option Bytes
  | [] => some []
  | [_] => none
  | c1 :: c2 :: rest =>
    match hexDigitVal c1, hexDigitVal c2, hexDecodeChars rest with
    | some h, some l, some tail => some ((16 * h + l) :: tail)
    | _, _, _ => none

/-- Embedding of `hex::decode`: `none` models the `Err` case (which every
call site turns into a panic via `unwrap`). -/
def hexDecode (s : String) : Option Bytes :=
  hexDecodeChars s.data

/-- Lower-case hex character of a value below 16, as produced by
`bitcoin_hashes`' `to_hex`. -/
def hexDigitChar (n : Nat) : Char :=
  if n < 10 then Char.ofNat (48 + n) else Char.ofNat (87 + n)

/-- Embedding of lower-case hex encoding (`to_hex`). -/
def hexEncode (bs : Bytes) : String :=
  String.mk (bs.flatMap fun b => [hexDigitChar (b / 16), hexDigitChar (b % 16)])

/-! ### Script building (`bitcoin::blockdata::script::Builder`)

`Builder::new().push_slice(data).into_script()` produces a script holding a
single data push: a length prefix (a direct push byte below `OP_PUSHDATA1`
= 76 when the data is short, otherwise an `OP_PUSHDATA1/2/4` marker with a
little-endian length) followed by the raw data bytes. -/

/-- Embedding of `Builder::push_slice` followed by `into_script`: the byte
encoding of a script consisting of one push of `data`.  (The real builder
panics above `2 ^ 32` bytes; no input of this program approaches that, and
the embedding keeps the `OP_PUSHDATA4` form there.) -/
def pushSlice (data : Bytes) : Bytes :=
  if data.length < 76 then data.length :: data
  else if data.length < 256 then 76 :: data.length :: data
  else if data.length < 65536 then
    77 :: data.length % 256 :: data.length / 256 :: data
  else
    78 :: data.length % 256 :: data.length / 256 % 256 ::
      data.length / 65536 % 256 :: data.length / 16777216 % 256 :: data

/-! ### SHA-256 (`bitcoin_hashes::sha256`)

Standard FIPS 180-4 SHA-256 over byte strings, used for transaction
identifiers (double SHA-256 of the legacy serialization) and to state what
the ledger's hash of a preimage actually is. -/

/-- Truncation to a 32-bit word. -/
def w32 (n : Nat) : Nat := n % 4294967296

/-- Right rotation of a 32-bit word by `n` places (arithmetic form). -/
def rotr32 (x n : Nat) : Nat := x / 2 ^ n + x % 2 ^ n * 2 ^ (32 - n)

/-- Message-schedule sigma-0. -/
def sSig0 (x : Nat) : Nat := (rotr32 x 7 ^^^ rotr32 x 18) ^^^ x / 2 ^ 3

/-- Message-schedule sigma-1. -/
def sSig1 (x : Nat) : Nat := (rotr32 x 17 ^^^ rotr32 x 19) ^^^ x / 2 ^ 10

/-- Compression big-sigma-0. -/
def bSig0 (x : Nat) : Nat := (rotr32 x 2 ^^^ rotr32 x 13) ^^^ rotr32 x 22

/-- Compression big-sigma-1. -/
def bSig1 (x : Nat) : Nat := (rotr32 x 6 ^^^ rotr32 x 11) ^^^ rotr32 x 25

/-- Choice function: for each bit, `y` where `x` is set, else `z`. -/
def sha256Ch (x y z : Nat) : Nat := (x &&& y) ^^^ ((4294967295 - x) &&& z)

/-- Majority function. -/
def sha256Maj (x y z : Nat) : Nat := ((x &&& y) ^^^ (x &&& z)) ^^^ (y &&& z)

/-- The 64 SHA-256 round constants. -/
def sha256K : List Nat :=
  [1116352408, 1899447441, 3049323471, 3921009573, 961987163,
   1508970993, 2453635748, 2870763221, 3624381080, 310598401,
   607225278, 1426881987, 1925078388, 2162078206, 2614888103,
   3248222580, 3835390401, 4022224774, 264347078, 604807628,
   770255983, 1249150122, 1555081692, 1996064986, 2554220882,
   2821834349, 2952996808, 3210313671, 3336571891, 3584528711,
   113926993, 338241895, 666307205, 773529912, 1294757372,
   1396182291, 1695183700, 1986661051, 2177026350, 2456956037,
   2730485921, 2820302411, 3259730800, 3345764771, 3516065817,
   3600352804, 4094571909, 275423344, 430227734, 506948616,
   659060556, 883997877, 958139571, 1322822218, 1537002063,
   1747873779, 1955562222, 2024104815, 2227730452, 2361852424,
   2428436474, 2756734187, 3204031479, 3329325298]

/-- The eight 32-bit words of a SHA-256 chaining state. -/
structure Hash8 where
  a : Nat
  b : Nat
  c : Nat
  d : Nat
  e : Nat
  f : Nat
  g : Nat
  h : Nat
deriving DecidableEq, Repr

/-- Initial SHA-256 chaining state. -/
def sha256H0 : Hash8 :=
  ⟨1779033703, 3144134277, 1013904242, 2773480762,
   1359893119, 2600822924, 528734635, 1541459225⟩

/-- One step of message-schedule extension: appends word `t` computed from
words `t-2`, `t-7`, `t-15` and `t-16`. -/
def schedStep (ws : List Nat) : List Nat :=
  ws ++ [w32 (sSig1 (ws.getD (ws.length - 2) 0) + ws.getD (ws.length - 7) 0 +
              sSig0 (ws.getD (ws.length - 15) 0) + ws.getD (ws.length - 16) 0)]

/-- Iterated message-schedule extension. -/
def schedExtend : Nat → List Nat → List Nat
  | 0, ws => ws
  | n + 1, ws => schedExtend n (schedStep ws)

/-- One SHA-256 round with round constant `k` and schedule word `w`. -/
def sha256Round (st : Hash8) (k w : Nat) : Hash8 :=
  let t1 := w32 (st.h + bSig1 st.e + sha256Ch st.e st.f st.g + k + w)
  let t2 := w32 (bSig0 st.a + sha256Maj st.a st.b st.c)
  ⟨w32 (t1 + t2), st.a, st.b, st.c, w32 (st.d + t1), st.e, st.f, st.g⟩

/-- Big-endian 32-bit words of a byte string (groups of four bytes). -/
def bytesToWordsBE : Bytes → List Nat
  | b0 :: b1 :: b2 :: b3 :: rest =>
    (b0 * 16777216 + b1 * 65536 + b2 * 256 + b3) :: bytesToWordsBE rest
  | _ => []

/-- Compression of one 64-byte block into the chaining state. -/
def sha256Block (st : Hash8) (block : Bytes) : Hash8 :=
  let ws := schedExtend 48 (bytesToWordsBE block)
  let fin := (sha256K.zip ws).foldl (fun s kw => sha256Round s kw.1 kw.2) st
  ⟨w32 (st.a + fin.a), w32 (st.b + fin.b), w32 (st.c + fin.c), w32 (st.d + fin.d),
   w32 (st.e + fin.e), w32 (st.f + fin.f), w32 (st.g + fin.g), w32 (st.h + fin.h)⟩

/-- Fueled traversal of the padded message 64 bytes at a time. -/
def sha256Blocks : Nat → Hash8 → Bytes → Hash8
  | 0, st, _ => st
  | fuel + 1, st, bytes =>
    match bytes with
    | [] => st
    | _ :: _ => sha256Blocks fuel (sha256Block st (bytes.take 64)) (bytes.drop 64)

/-- Big-endian eight-byte encoding of a message bit length. -/
def u64be (n : Nat) : Bytes :=
  [n / 2 ^ 56 % 256, n / 2 ^ 48 % 256, n / 2 ^ 40 % 256, n / 2 ^ 32 % 256,
   n / 2 ^ 24 % 256, n / 2 ^ 16 % 256, n / 2 ^ 8 % 256, n % 256]

/-- SHA-256 padding: a `0x80` byte, zeros to 56 mod 64, and the big-endian
64-bit bit length. -/
def sha256Pad (msg : Bytes) : Bytes :=
  msg ++ 0x80 :: List.replicate ((119 - msg.length % 64) % 64) 0 ++ u64be (8 * msg.length)

/-- Big-endian four-byte rendering of a 32-bit word. -/
def u32be (x : Nat) : Bytes :=
  [x / 16777216 % 256, x / 65536 % 256, x / 256 % 256, x % 256]

/-- SHA-256 digest of a byte string: 32 bytes. -/
def sha256 (msg : Bytes) : Bytes :=
  let padded := sha256Pad msg
  let st := sha256Blocks (padded.length) sha256H0 padded
  u32be st.a ++ u32be st.b ++ u32be st.c ++ u32be st.d ++
    u32be st.e ++ u32be st.f ++ u32be st.g ++ u32be st.h

/-! ### Transaction data model (`bitcoin::blockdata::transaction`)

Machine-integer fields are `Nat` holding the field's unsigned bit pattern
(`version` is an `i32` whose only value in this program is 1; `vout`,
`sequence` and `lock_time` are `u32`; `value` is a `u64`). -/

/-- Reference to a previous transaction's output: 32-byte transaction
identifier and output index. -/
structure OutPoint where
  txid : Bytes
  vout : Nat
deriving DecidableEq, Repr

/-- Transaction input: previous output reference, unlocking script,
sequence number and segregated-witness stack. -/
structure TxIn where
  previous_output : OutPoint
  script_sig : Bytes
  sequence : Nat
  witness : List Bytes
deriving DecidableEq, Repr

/-- Transaction output: value in satoshi and locking script. -/
structure TxOut where
  value : Nat
  script_pubkey : Bytes
deriving DecidableEq, Repr

/-- Transaction: version, lock time, ordered inputs and ordered outputs. -/
structure Transaction where
  version : Nat
  lock_time : Nat
  input : List TxIn
  output : List TxOut
deriving DecidableEq, Repr

/-! ### Consensus encoding (`bitcoin::consensus::encode`)

Little-endian fixed-width integers, Bitcoin's variable-length integer
(`VarInt`), length-prefixed byte strings, and the legacy/segwit
transaction formats, as implemented by rust-bitcoin 0.26.  Decoders take
the byte string and return the decoded value with the unconsumed tail, or
a `DecodeError`. -/

/-- Decode-side failures of `bitcoin::consensus::encode`. -/
inductive DecodeError where
  /-- Ran out of input bytes (an io `UnexpectedEof`). -/
  | eof
  /-- A `VarInt` payload below its marker's minimum (`NonMinimalVarInt`). -/
  | nonMinimalVarInt
  /-- The `ParseFailed("witness flag set but no witnesses present")` case. -/
  | parseFailed
  /-- A segwit marker followed by a flag byte other than 1. -/
  | unsupportedSegwitFlag (flag : Nat)
  /-- The `deserialize` wrapper found unconsumed trailing bytes. -/
  | dataNotConsumed
deriving DecidableEq, Repr

/-- Little-endian two-byte encoding of a `u16`. -/
def encodeU16le (n : Nat) : Bytes := [n % 256, n / 256 % 256]

/-- Little-endian four-byte encoding of a `u32`. -/
def encodeU32le (n : Nat) : Bytes :=
  [n % 256, n / 256 % 256, n / 65536 % 256, n / 16777216 % 256]

/-- Little-endian eight-byte encoding of a `u64`. -/
def encodeU64le (n : Nat) : Bytes :=
  [n % 256, n / 256 % 256, n / 65536 % 256, n / 16777216 % 256,
   n / 4294967296 % 256, n / 1099511627776 % 256,
   n / 281474976710656 % 256, n / 72057594037927936 % 256]

/-- Read one byte. -/
def readU8 : Bytes → Except DecodeError (Nat × Bytes)
  | [] => .error .eof
  | b :: rest => .ok (b, rest)

/-- Read a little-endian `u16`. -/
def readU16le : Bytes → Except DecodeError (Nat × Bytes)
  | b0 :: b1 :: rest => .ok (b0 + 256 * b1, rest)
  | _ => .error .eof

/-- Read a little-endian `u32`. -/
def readU32le : Bytes → Except DecodeError (Nat × Bytes)
  | b0 :: b1 :: b2 :: b3 :: rest =>
    .ok (b0 + 256 * b1 + 65536 * b2 + 16777216 * b3, rest)
  | _ => .error .eof

/-- Read a little-endian `u64`. -/
def readU64le : Bytes → Except DecodeError (Nat × Bytes)
  | b0 :: b1 :: b2 :: b3 :: b4 :: b5 :: b6 :: b7 :: rest =>
    .ok (b0 + 256 * b1 + 65536 * b2 + 16777216 * b3 + 4294967296 * b4 +
         1099511627776 * b5 + 281474976710656 * b6 + 72057594037927936 * b7, rest)
  | _ => .error .eof

/-- Bitcoin `VarInt` encoding: one byte below 253, otherwise a marker byte
and a little-endian 2-, 4- or 8-byte payload, shortest form. -/
def encodeVarint (n : Nat) : Bytes :=
  if n < 253 then [n]
  else if n ≤ 65535 then 253 :: encodeU16le n
  else if n ≤ 4294967295 then 254 :: encodeU32le n
  else 255 :: encodeU64le n

/-- Bitcoin `VarInt` decoding, rejecting non-minimal forms as rust-bitcoin
does. -/
def readVarint : Bytes → Except DecodeError (Nat × Bytes)
  | [] => .error .eof
  | b :: rest =>
    if b < 253 then .ok (b, rest)
    else if b = 253 then
      match readU16le rest with
      | .error e => .error e
      | .ok (x, r) => if x < 253 then .error .nonMinimalVarInt else .ok (x, r)
    else if b = 254 then
      match readU32le rest with
      | .error e => .error e
      | .ok (x, r) => if x ≤ 65535 then .error .nonMinimalVarInt else .ok (x, r)
    else
      match readU64le rest with
      | .error e => .error e
      | .ok (x, r) => if x ≤ 4294967295 then .error .nonMinimalVarInt else .ok (x, r)

/-- Read exactly `n` raw bytes. -/
def readBytesN (n : Nat) (s : Bytes) : Except DecodeError (Bytes × Bytes) :=
  if n ≤ s.length then .ok (s.take n, s.drop n) else .error .eof

/-- Length-prefixed byte string (script or witness item) encoding. -/
def encodeBytesVar (b : Bytes) : Bytes := encodeVarint b.length ++ b

/-- Length-prefixed byte string decoding. -/
def readBytesVar (s : Bytes) : Except DecodeError (Bytes × Bytes) :=
  match readVarint s with
  | .error e => .error e
  | .ok (n, r) => readBytesN n r

/-- Count-prefixed list encoding (`Vec<T>` in consensus encoding). -/
def encodeList {α : Type} (enc : α → Bytes) (l : List α) : Bytes :=
  encodeVarint l.length ++ (l.map enc).flatten

/-- Read `n` consecutive items. -/
def readCount {α : Type} (read1 : Bytes → Except DecodeError (α × Bytes)) :
    Nat → Bytes → Except DecodeError (List α × Bytes)
  | 0, s => .ok ([], s)
  | n + 1, s =>
    match read1 s with
    | .error e => .error e
    | .ok (a, r) =>
      match readCount read1 n r with
      | .error e => .error e
      | .ok (as, r2) => .ok (a :: as, r2)

/-- Count-prefixed list decoding. -/
def readList {α : Type} (read1 : Bytes → Except DecodeError (α × Bytes))
    (s : Bytes) : Except DecodeError (List α × Bytes) :=
  match readVarint s with
  | .error e => .error e
  | .ok (n, r) => readCount read1 n r

/-- Consensus encoding of an `OutPoint`: raw 32-byte txid, `u32` index. -/
def encodeOutPoint (o : OutPoint) : Bytes := o.txid ++ encodeU32le o.vout

/-- Consensus decoding of an `OutPoint`. -/
def readOutPoint (s : Bytes) : Except DecodeError (OutPoint × Bytes) :=
  match readBytesN 32 s with
  | .error e => .error e
  | .ok (t, r) =>
    match readU32le r with
    | .error e => .error e
    | .ok (v, r2) => .ok (⟨t, v⟩, r2)

/-- Consensus encoding of a `TxIn` (the witness is carried separately, in
the segwit section). -/
def encodeTxIn (i : TxIn) : Bytes :=
  encodeOutPoint i.previous_output ++ encodeBytesVar i.script_sig ++
    encodeU32le i.sequence

/-- Consensus decoding of a `TxIn`; the witness starts out empty. -/
def readTxIn (s : Bytes) : Except DecodeError (TxIn × Bytes) :=
  match readOutPoint s with
  | .error e => .error e
  | .ok (op, r) =>
    match readBytesVar r with
    | .error e => .error e
    | .ok (ss, r2) =>
      match readU32le r2 with
      | .error e => .error e
      | .ok (sq, r3) => .ok (⟨op, ss, sq, []⟩, r3)

/-- Consensus encoding of a `TxOut`. -/
def encodeTxOut (o : TxOut) : Bytes :=
  encodeU64le o.value ++ encodeBytesVar o.script_pubkey

/-- Consensus decoding of a `TxOut`. -/
def readTxOut (s : Bytes) : Except DecodeError (TxOut × Bytes) :=
  match readU64le s with
  | .error e => .error e
  | .ok (v, r) =>
    match readBytesVar r with
    | .error e => .error e
    | .ok (sp, r2) => .ok (⟨v, sp⟩, r2)

/-- Legacy (pre-segwit) transaction serialization: version, inputs,
outputs, lock time.  This is also the byte string hashed for the
transaction identifier. -/
def serializeLegacyTx (tx : Transaction) : Bytes :=
  encodeU32le tx.version ++ encodeList encodeTxIn tx.input ++
    encodeList encodeTxOut tx.output ++ encodeU32le tx.lock_time

/-- Embedding of `bitcoin::consensus::encode::serialize` for transactions,
per rust-bitcoin 0.26: `have_witness` starts out as `input.is_empty()` —
a zero-input transaction is serialized in BIP141 form, to avoid ambiguity
with the legacy input count — and becomes true when some input carries a
non-empty witness.  With it the segwit format is written (marker 0, flag
1, per-input witness stacks before the lock time), otherwise the legacy
format. -/
def serializeTx (tx : Transaction) : Bytes :=
  if tx.input.isEmpty || tx.input.any (fun i => !i.witness.isEmpty) then
    encodeU32le tx.version ++ 0 :: 1 :: encodeList encodeTxIn tx.input ++
      encodeList encodeTxOut tx.output ++
      (tx.input.map (fun i => encodeList encodeBytesVar i.witness)).flatten ++
      encodeU32le tx.lock_time
  else serializeLegacyTx tx

/-- Attach decoded witness stacks to already-decoded inputs, in order. -/
def readWitnesses : List TxIn → Bytes → Except DecodeError (List TxIn × Bytes)
  | [], s => .ok ([], s)
  | i :: is, s =>
    match readList readBytesVar s with
    | .error e => .error e
    | .ok (w, r) =>
      match readWitnesses is r with
      | .error e => .error e
      | .ok (rest, r2) => .ok ({ i with witness := w } :: rest, r2)

/-- Embedding of rust-bitcoin 0.26's `Transaction::consensus_decode`:
reads the version and the input list; an empty input list switches to the
segwit interpretation, where the next byte must be flag 1, inputs and
outputs follow, then one witness stack per input, and a transaction whose
inputs all still have empty witnesses is rejected. -/
def decodeTx (s : Bytes) : Except DecodeError (Transaction × Bytes) :=
  match readU32le s with
  | .error e => .error e
  | .ok (version, r) =>
    match readList readTxIn r with
    | .error e => .error e
    | .ok (input, r2) =>
      match input with
      | [] =>
        match readU8 r2 with
        | .error e => .error e
        | .ok (flag, r3) =>
          if flag = 1 then
            match readList readTxIn r3 with
            | .error e => .error e
            | .ok (input2, r4) =>
              match readList readTxOut r4 with
              | .error e => .error e
              | .ok (output, r5) =>
                match readWitnesses input2 r5 with
                | .error e => .error e
                | .ok (input3, r6) =>
                  if input3 ≠ [] ∧ input3.all (fun i => i.witness.isEmpty) then
                    .error .parseFailed
                  else
                    match readU32le r6 with
                    | .error e => .error e
                    | .ok (lt, r7) => .ok (⟨version, lt, input3, output⟩, r7)
          else .error (.unsupportedSegwitFlag flag)
      | _ :: _ =>
        match readList readTxOut r2 with
        | .error e => .error e
        | .ok (output, r3) =>
          match readU32le r3 with
          | .error e => .error e
          | .ok (lt, r4) => .ok (⟨version, lt, input, output⟩, r4)

/-- Embedding of `bitcoin::consensus::encode::deserialize` for
transactions: decode and require every byte to be consumed. -/
def deserializeTx (s : Bytes) : Except DecodeError Transaction :=
  match decodeTx s with
  | .error e => .error e
  | .ok (tx, r) => if r.isEmpty then .ok tx else .error .dataNotConsumed

/-- Transaction identifier (`Transaction::txid`): double SHA-256 of the
legacy serialization (witness data excluded), kept in digest byte order as
it is embedded into outpoints. -/
def Transaction.txid (tx : Transaction) : Bytes :=
  sha256 (sha256 (serializeLegacyTx tx))

/-! ### Addresses (`bitcoin::util::address`)

`Address::from_script` recognizes exactly the standard templates
(pay-to-pubkey-hash, pay-to-script-hash, witness programs) and returns
`None` for any other script.  For every recognized template the address
payload determines the script bytes exactly, so the embedding records the
script itself together with the network; `Address::script_pubkey`
reproduces those bytes. -/

/-- Network selector; the program only ever uses `Network::Testnet`. -/
inductive Network where
  | bitcoin
  | testnet
  | signet
  | regtest
deriving DecidableEq, Repr

/-- Address: network plus the locking-script bytes its payload encodes. -/
structure Address where
  network : Network
  spk : Bytes
deriving DecidableEq, Repr

/-- Embedding of `Address::script_pubkey`. -/
def Address.script_pubkey (a : Address) : Bytes := a.spk

/-- Embedding of `Script::is_p2pkh`: the 25-byte
`OP_DUP OP_HASH160 <20 bytes> OP_EQUALVERIFY OP_CHECKSIG` template. -/
def is_p2pkh (s : Bytes) : Bool :=
  s.length == 25 && s.headD 0 == 118 && s.getD 1 0 == 169 &&
    s.getD 2 0 == 20 && s.getD 23 0 == 136 && s.getD 24 0 == 172

/-- Embedding of `Script::is_p2sh`: the 23-byte
`OP_HASH160 <20 bytes> OP_EQUAL` template. -/
def is_p2sh (s : Bytes) : Bool :=
  s.length == 23 && s.headD 0 == 169 && s.getD 1 0 == 20 && s.getD 22 0 == 135

/-- Embedding of `Script::` `.is_witness_program`: 4 to 42 bytes, first
opcode `OP_0` or `OP_PUSHNUM_1 ..= OP_PUSHNUM_16` (81 to 96), second byte a
direct push of the whole remainder. -/
def is_witness_program (s : Bytes) : Bool :=
  decide (4 ≤ s.length) && decide (s.length ≤ 42) &&
    (s.headD 0 == 0 || (decide (81 ≤ s.headD 0) && decide (s.headD 0 ≤ 96))) &&
    s.getD 1 0 == s.length - 2

/-- Embedding of `Address::from_script`: an address for exactly the
recognized script templates, `None` otherwise. -/
def Address.from_script (s : Bytes) (n : Network) : Option Address :=
  if is_p2pkh s || is_p2sh s || is_witness_program s then some ⟨n, s⟩ else none

/-! ### The program (`src/main.rs`) -/

/-- The hex the source's sighash-helper chain embeds into the redeem-script
string.  Modelled from the spec: the `SigHashCache` call sequence in
`generate_redeem_script` (src/main.rs lines 11-15) lives in the external
`bitcoin` crate, not under `src/`; spec section 9 records that it derives
its value from a fixed zero-filled buffer via an unrelated signature-hash
helper, independent of the preimage, and the repository's own unit test
(src/main.rs line 76) pins the resulting hex to this constant. -/
def sighash_lock_hex : String :=
  "0100000000000000000000000000000000000000000000000000000000000000"

/-- Embedding of `generate_redeem_script` (src/main.rs lines 9-17): decode
the preimage hex (panicking on malformed hex), run the sighash-helper
chain, and format the display string `OP_SHA256 <hex> OP_EQUAL`.  The
digest hex is `sighash_lock_hex`, not a hash of the preimage. -/
def generate_redeem_script (preimage : String) (_transaction : Transaction) :
    Except Panic String :=
  match hexDecode preimage with
  | none => .error .hexDecodeError
  | some _preimage_bytes => .ok ("OP_SHA256 " ++ sighash_lock_hex ++ " OP_EQUAL")

/-- Embedding of `derive_address` (src/main.rs lines 20-24): decode the
argument as hex (panicking on malformed hex), wrap the decoded bytes into
a script consisting of a single data push, and unwrap
`Address::from_script` on it (panicking on `None`). -/
def derive_address (redeem_script : String) : Except Panic Address :=
  match hexDecode redeem_script with
  | none => .error .hexDecodeError
  | some redeem_script_bytes =>
    match Address.from_script (pushSlice redeem_script_bytes) Network.testnet with
    | some a => .ok a
    | none => .error .unwrapNone

/-- Embedding of `construct_transaction` (src/main.rs lines 26-37). -/
def construct_transaction (target_address : Address) (amount : Nat) :
    Transaction :=
  { version := 1, lock_time := 0, input := [],
    output := [{ value := amount, script_pubkey := target_address.script_pubkey }] }

/-- Embedding of `construct_spending_transaction` (src/main.rs lines
39-66), in source order: the previous transaction's identifier, the input
(whose `script_sig` pushes the hex-decoded `redeem_script` argument and
whose outpoint is `txid.into()`, index 0), the payout output, then the
change output, whose `prev_transaction.output[0]` indexing panics on an
empty output list and whose `u64` subtraction panics (in a debug build)
when the amount exceeds the first output's value. -/
def construct_spending_transaction (prev_transaction : Transaction)
    (redeem_script : String) (amount_to_spend : Nat) (change_address : Address) :
    Except Panic Transaction :=
  let txid := prev_transaction.txid
  match hexDecode redeem_script with
  | none => .error .hexDecodeError
  | some redeem_bytes =>
    let txin : TxIn :=
      { previous_output := ⟨txid, 0⟩, script_sig := pushSlice redeem_bytes,
        sequence := 4294967295, witness := [] }
    let txout1 : TxOut :=
      { value := amount_to_spend, script_pubkey := change_address.script_pubkey }
    match prev_transaction.output with
    | [] => .error .indexOutOfBounds
    | o0 :: _ =>
      if amount_to_spend ≤ o0.value then
        .ok { version := 1, lock_time := 0, input := [txin],
              output := [txout1,
                         { value := o0.value - amount_to_spend,
                           script_pubkey := o0.script_pubkey }] }
      else .error .subOverflow

/-- The `Transaction::default()` the orchestrator (src/main.rs line 116)
hands to `generate_redeem_script`: all fields zero or empty. -/
def defaultTransaction : Transaction :=
  { version := 0, lock_time := 0, input := [], output := [] }

/-- Conditions under which the program's transactions are faithfully
re-read: at least one input (an empty input list collides with the segwit
marker), empty witnesses, 32-byte identifiers, and every machine-integer
field within its width. -/
def WellFormedLegacy (tx : Transaction) : Prop :=
  tx.version < 4294967296 ∧ tx.lock_time < 4294967296 ∧ tx.input ≠ [] ∧
  tx.input.length < 18446744073709551616 ∧
  tx.output.length < 18446744073709551616 ∧
  (∀ i ∈ tx.input, i.witness = [] ∧ i.previous_output.txid.length = 32 ∧
    i.previous_output.vout < 4294967296 ∧ i.sequence < 4294967296 ∧
    i.script_sig.length < 18446744073709551616) ∧
  (∀ o ∈ tx.output, o.value < 18446744073709551616 ∧
    o.script_pubkey.length < 18446744073709551616)

/-! ### Concrete sample values used by witnesses and counterexamples -/

/-- A testnet address whose script is a version-0, 20-byte witness
program, as the spec's end-to-end scenario uses. -/
def sampleAddress : Address :=
  ⟨.testnet, [0, 20, 1, 2, 3, 4, 5, 6, 7, 8, 9, 10,
              11, 12, 13, 14, 15, 16, 17, 18, 19, 20]⟩

/-- The funding transaction of the spec's end-to-end scenario: amount
50000 paid to `sampleAddress`. -/
def sampleFundingTx : Transaction := construct_transaction sampleAddress 50000

/-- The spending transaction built from `sampleFundingTx` with the
(valid-hex) redeem string "aa", spend amount 10000 and `sampleAddress` as
the change address. -/
def sampleSpendingTx : Transaction :=
  (construct_spending_transaction sampleFundingTx "aa" 10000 sampleAddress).toOption.getD
    defaultTransaction

/-! ## Theorems

General lemmas about the embedded codec and library functions first, then
one theorem (plus witness or counterexample) per claim. -/

/-- Sanity pin of the SHA-256 embedding against the FIPS 180-4 test vector
for the three-byte message "abc". -/
theorem sha256_abc_vector :
    sha256 [0x61, 0x62, 0x63] =
      [0xba, 0x78, 0x16, 0xbf, 0x8f, 0x01, 0xcf, 0xea, 0x41, 0x41, 0x40, 0xde,
       0x5d, 0xae, 0x22, 0x23, 0xb0, 0x03, 0x61, 0xa3, 0x96, 0x17, 0x7a, 0x9c,
       0xb4, 0x10, 0xff, 0x61, 0xf2, 0x00, 0x15, 0xad] := by decide

/-- A SHA-256 digest is 32 bytes, whatever the message. -/
theorem sha256_length (msg : Bytes) : (sha256 msg).length = 32 := by
  simp [sha256, u32be]

/-- A transaction identifier is 32 bytes. -/
theorem txid_length (tx : Transaction) : tx.txid.length = 32 :=
  sha256_length _

/-- Hex decoding halves the character count: each byte consumes two
characters. -/
theorem hexDecodeChars_length :
    ∀ cs bs, hexDecodeChars cs = some bs → 2 * bs.length = cs.length
  | [], bs, h => by
    simp only [hexDecodeChars, Option.some.injEq] at h
    subst h; rfl
  | [_], bs, h => by simp [hexDecodeChars] at h
  | c1 :: c2 :: rest, bs, h => by
    simp only [hexDecodeChars] at h
    cases h1 : hexDigitVal c1 <;> rw [h1] at h
    · exact absurd h (by simp)
    cases h2 : hexDigitVal c2 <;> rw [h2] at h
    · exact absurd h (by simp)
    cases h3 : hexDecodeChars rest <;> rw [h3] at h
    · exact absurd h (by simp)
    simp only [Option.some.injEq] at h
    subst h
    have := hexDecodeChars_length rest _ h3
    simp only [List.length_cons]
    omega

/-- Round trip of the little-endian `u16` form. -/
theorem readU16le_encodeU16le (n : Nat) (h : n < 65536) (r : Bytes) :
    readU16le (encodeU16le n ++ r) = .ok (n, r) := by
  simp only [encodeU16le, List.cons_append, List.nil_append, readU16le,
    Except.ok.injEq, Prod.mk.injEq]
  exact ⟨by omega, trivial⟩

/-- Round trip of the little-endian `u32` form. -/
theorem readU32le_encodeU32le (n : Nat) (h : n < 4294967296) (r : Bytes) :
    readU32le (encodeU32le n ++ r) = .ok (n, r) := by
  simp only [encodeU32le, List.cons_append, List.nil_append, readU32le,
    Except.ok.injEq, Prod.mk.injEq]
  exact ⟨by omega, trivial⟩

/-- Round trip of the little-endian `u64` form. -/
theorem readU64le_encodeU64le (n : Nat) (h : n < 18446744073709551616) (r : Bytes) :
    readU64le (encodeU64le n ++ r) = .ok (n, r) := by
  simp only [encodeU64le, List.cons_append, List.nil_append, readU64le,
    Except.ok.injEq, Prod.mk.injEq]
  exact ⟨by omega, trivial⟩

/-- Round trip of the `VarInt` form: minimal encodings decode to
themselves, with the trailing bytes untouched. -/
theorem readVarint_encodeVarint (n : Nat) (h : n < 18446744073709551616) (r : Bytes) :
    readVarint (encodeVarint n ++ r) = .ok (n, r) := by
  by_cases h1 : n < 253
  · simp [encodeVarint, h1, readVarint]
  · by_cases h2 : n ≤ 65535
    · simp only [encodeVarint, if_neg h1, if_pos h2, List.cons_append, readVarint]
      rw [readU16le_encodeU16le n (by omega) r]
      simp [h1]
    · by_cases h3 : n ≤ 4294967295
      · simp only [encodeVarint, if_neg h1, if_neg h2, if_pos h3, List.cons_append,
          readVarint]
        rw [readU32le_encodeU32le n (by omega) r]
        simp [h2]
      · simp only [encodeVarint, if_neg h1, if_neg h2, if_neg h3, List.cons_append,
          readVarint]
        rw [readU64le_encodeU64le n h r]
        simp [h3]

/-- Reading back exactly the bytes that were written leaves the tail. -/
theorem readBytesN_append (b r : Bytes) : readBytesN b.length (b ++ r) = .ok (b, r) := by
  simp [readBytesN]

/-- Round trip of the length-prefixed byte-string form. -/
theorem readBytesVar_encodeBytesVar (b : Bytes) (h : b.length < 18446744073709551616)
    (r : Bytes) : readBytesVar (encodeBytesVar b ++ r) = .ok (b, r) := by
  simp only [encodeBytesVar, readBytesVar, List.append_assoc]
  rw [readVarint_encodeVarint b.length h (b ++ r)]
  exact readBytesN_append b r

/-- Round trip of the `OutPoint` form (the identifier must really be 32
bytes, as every identifier the program builds is). -/
theorem readOutPoint_encodeOutPoint (o : OutPoint) (ht : o.txid.length = 32)
    (hv : o.vout < 4294967296) (r : Bytes) :
    readOutPoint (encodeOutPoint o ++ r) = .ok (o, r) := by
  obtain ⟨t, v⟩ := o
  simp only at ht hv
  simp only [readOutPoint, encodeOutPoint, List.append_assoc]
  rw [← ht, readBytesN_append t (encodeU32le v ++ r)]
  dsimp only
  rw [readU32le_encodeU32le v hv r]

/-- Round trip of the legacy `TxIn` form; the witness of a legacy input is
empty on both sides. -/
theorem readTxIn_encodeTxIn (i : TxIn) (hw : i.witness = [])
    (ht : i.previous_output.txid.length = 32)
    (hv : i.previous_output.vout < 4294967296) (hs : i.sequence < 4294967296)
    (hl : i.script_sig.length < 18446744073709551616) (r : Bytes) :
    readTxIn (encodeTxIn i ++ r) = .ok (i, r) := by
  obtain ⟨op, ss, sq, w⟩ := i
  simp only at hw ht hv hs hl
  subst hw
  simp only [readTxIn, encodeTxIn, List.append_assoc]
  rw [readOutPoint_encodeOutPoint op ht hv]
  dsimp only
  rw [readBytesVar_encodeBytesVar ss hl]
  dsimp only
  rw [readU32le_encodeU32le sq hs]

/-- Round trip of the `TxOut` form. -/
theorem readTxOut_encodeTxOut (o : TxOut) (hv : o.value < 18446744073709551616)
    (hl : o.script_pubkey.length < 18446744073709551616) (r : Bytes) :
    readTxOut (encodeTxOut o ++ r) = .ok (o, r) := by
  obtain ⟨v, sp⟩ := o
  simp only at hv hl
  simp only [readTxOut, encodeTxOut, List.append_assoc]
  rw [readU64le_encodeU64le v hv]
  dsimp only
  rw [readBytesVar_encodeBytesVar sp hl]

/-- Reading back `l.length` items from the written items leaves the tail,
given a round trip for each written item. -/
theorem readCount_flatten {α : Type} (read1 : Bytes → Except DecodeError (α × Bytes))
    (enc : α → Bytes) (l : List α)
    (h1 : ∀ a ∈ l, ∀ r, read1 (enc a ++ r) = .ok (a, r)) (r : Bytes) :
    readCount read1 l.length ((l.map enc).flatten ++ r) = .ok (l, r) := by
  induction l generalizing r with
  | nil => simp [readCount]
  | cons a as ih =>
    simp only [List.map_cons, List.flatten_cons, List.length_cons, List.append_assoc,
      readCount]
    rw [h1 a (by simp) ((as.map enc).flatten ++ r)]
    dsimp only
    rw [ih (fun x hx r2 => h1 x (by simp [hx]) r2) r]

/-- Round trip of the count-prefixed list form. -/
theorem readList_encodeList {α : Type} (read1 : Bytes → Except DecodeError (α × Bytes))
    (enc : α → Bytes) (l : List α) (hlen : l.length < 18446744073709551616)
    (h1 : ∀ a ∈ l, ∀ r, read1 (enc a ++ r) = .ok (a, r)) (r : Bytes) :
    readList read1 (encodeList enc l ++ r) = .ok (l, r) := by
  simp only [encodeList, readList, List.append_assoc]
  rw [readVarint_encodeVarint l.length hlen]
  exact readCount_flatten read1 enc l h1 r

/-- Decoding the legacy serialization of a well-formed transaction
reproduces it and leaves the tail untouched. -/
theorem decodeTx_serializeLegacyTx (tx : Transaction) (hwf : WellFormedLegacy tx)
    (r : Bytes) : decodeTx (serializeLegacyTx tx ++ r) = .ok (tx, r) := by
  obtain ⟨hver, hlock, hne, hinc, houtc, hin, hout⟩ := hwf
  obtain ⟨ver, lt, input, output⟩ := tx
  simp only at hver hlock hne hinc houtc hin hout
  simp only [serializeLegacyTx, decodeTx, List.append_assoc]
  rw [readU32le_encodeU32le ver hver]
  dsimp only
  rw [readList_encodeList readTxIn encodeTxIn input hinc
    (fun i hi r2 => readTxIn_encodeTxIn i (hin i hi).1 (hin i hi).2.1
      (hin i hi).2.2.1 (hin i hi).2.2.2.1 (hin i hi).2.2.2.2 r2)]
  dsimp only
  cases input with
  | nil => exact absurd rfl hne
  | cons i0 is =>
    dsimp only
    rw [readList_encodeList readTxOut encodeTxOut output houtc
      (fun o ho r2 => readTxOut_encodeTxOut o (hout o ho).1 (hout o ho).2 r2)]
    dsimp only
    rw [readU32le_encodeU32le lt hlock]

/-- With at least one input and every witness empty, rust-bitcoin
serializes in the legacy format. -/
theorem serializeTx_eq_legacy (tx : Transaction) (hne : tx.input ≠ [])
    (hw : ∀ i ∈ tx.input, i.witness = []) : serializeTx tx = serializeLegacyTx tx := by
  have h1 : tx.input.isEmpty = false := by
    cases h : tx.input
    · exact absurd h hne
    · rfl
  have h2 : tx.input.any (fun i => !i.witness.isEmpty) = false := by
    rw [List.any_eq_false]
    intro i hi
    simp [hw i hi]
  simp [serializeTx, h1, h2]

/-- Full round trip for well-formed transactions with empty witnesses:
serialization deserializes to the original transaction. -/
theorem deserializeTx_serializeTx (tx : Transaction) (hwf : WellFormedLegacy tx) :
    deserializeTx (serializeTx tx) = .ok tx := by
  rw [serializeTx_eq_legacy tx hwf.2.2.1 (fun i hi => (hwf.2.2.2.2.2.1 i hi).1)]
  have h := decodeTx_serializeLegacyTx tx hwf []
  rw [List.append_nil] at h
  simp [deserializeTx, h]

/-- A count prefix of zero reads back the empty list at once. -/
theorem readList_zero {α : Type} (read1 : Bytes → Except DecodeError (α × Bytes))
    (s : Bytes) : readList read1 (0 :: s) = .ok ([], s) := by
  simp [readList, readVarint, readCount]

/-- Shape of the BIP141-form serialization of a zero-input transaction:
version, marker 0, flag 1, the (empty) input section, the outputs, and —
with no inputs, no witness stacks — the lock time. -/
theorem serializeTx_empty_eq (tx : Transaction) (hni : tx.input = []) :
    serializeTx tx =
      encodeU32le tx.version ++ 0 :: 1 :: encodeList encodeTxIn tx.input ++
        encodeList encodeTxOut tx.output ++ encodeU32le tx.lock_time := by
  simp [serializeTx, hni]

/-- Decoding the BIP141-form serialization of a zero-input transaction
reproduces it and leaves the tail: the decoder reads the empty input
list, the flag byte 1, the real (empty) input section, the outputs and
the lock time; the no-witness rejection does not fire because there are
no inputs to lack witnesses. -/
theorem decodeTx_serializeTx_empty (tx : Transaction) (hni : tx.input = [])
    (hver : tx.version < 4294967296) (hlock : tx.lock_time < 4294967296)
    (houtc : tx.output.length < 18446744073709551616)
    (hout : ∀ o ∈ tx.output, o.value < 18446744073709551616 ∧
      o.script_pubkey.length < 18446744073709551616) (r : Bytes) :
    decodeTx (serializeTx tx ++ r) = .ok (tx, r) := by
  obtain ⟨ver, lt, input, output⟩ := tx
  simp only at hni hver hlock houtc hout
  subst hni
  rw [serializeTx_empty_eq ⟨ver, lt, [], output⟩ rfl]
  simp only [decodeTx, List.append_assoc, List.cons_append]
  rw [readU32le_encodeU32le ver hver]
  dsimp only
  rw [readList_zero readTxIn]
  dsimp only
  simp only [readU8, if_true]
  rw [readList_encodeList readTxIn encodeTxIn [] (by simp)
    (fun a ha => absurd ha (List.not_mem_nil a))]
  dsimp only
  rw [readList_encodeList readTxOut encodeTxOut output houtc
    (fun o ho r2 => readTxOut_encodeTxOut o (hout o ho).1 (hout o ho).2 r2)]
  dsimp only
  simp only [readWitnesses]
  rw [if_neg (fun h => h.1 rfl)]
  rw [readU32le_encodeU32le lt hlock]

/-- Full round trip for zero-input transactions: rust-bitcoin 0.26
serializes them in BIP141 form precisely so that they survive
deserialization. -/
theorem deserializeTx_serializeTx_empty (tx : Transaction) (hni : tx.input = [])
    (hver : tx.version < 4294967296) (hlock : tx.lock_time < 4294967296)
    (houtc : tx.output.length < 18446744073709551616)
    (hout : ∀ o ∈ tx.output, o.value < 18446744073709551616 ∧
      o.script_pubkey.length < 18446744073709551616) :
    deserializeTx (serializeTx tx) = .ok tx := by
  have h := decodeTx_serializeTx_empty tx hni hver hlock houtc hout []
  rw [List.append_nil] at h
  simp [deserializeTx, h]

/-- The script built by `push_slice` starts with the data length (below
76), or with one of the `OP_PUSHDATA1/2/4` marker bytes 76, 77, 78. -/
theorem pushSlice_cases (b : Bytes) :
    (pushSlice b = b.length :: b ∧ b.length < 76) ∨
    (∃ t, pushSlice b = 76 :: t) ∨ (∃ t, pushSlice b = 77 :: t) ∨
    (∃ t, pushSlice b = 78 :: t) := by
  simp only [pushSlice]
  split_ifs with h1 h2 h3
  · exact Or.inl ⟨rfl, h1⟩
  · exact Or.inr (Or.inl ⟨_, rfl⟩)
  · exact Or.inr (Or.inr (Or.inl ⟨_, rfl⟩))
  · exact Or.inr (Or.inr (Or.inr ⟨_, rfl⟩))

/-- A single data push is never the pay-to-pubkey-hash template. -/
theorem is_p2pkh_pushSlice (b : Bytes) : is_p2pkh (pushSlice b) = false := by
  rcases pushSlice_cases b with ⟨he, hl⟩ | ⟨t, he⟩ | ⟨t, he⟩ | ⟨t, he⟩ <;> rw [he]
  · have h118 : (b.length == 118) = false := beq_eq_false_iff_ne.mpr (by omega)
    simp [is_p2pkh, h118]
  · simp [is_p2pkh]
  · simp [is_p2pkh]
  · simp [is_p2pkh]

/-- A single data push is never the pay-to-script-hash template. -/
theorem is_p2sh_pushSlice (b : Bytes) : is_p2sh (pushSlice b) = false := by
  rcases pushSlice_cases b with ⟨he, hl⟩ | ⟨t, he⟩ | ⟨t, he⟩ | ⟨t, he⟩ <;> rw [he]
  · have h169 : (b.length == 169) = false := beq_eq_false_iff_ne.mpr (by omega)
    simp [is_p2sh, h169]
  · simp [is_p2sh]
  · simp [is_p2sh]
  · simp [is_p2sh]

/-- A single data push is never a witness program: its first byte is a
push length below 76 or a pushdata marker, never `OP_0` with three more
bytes behind it nor `OP_PUSHNUM_1 ..= OP_PUSHNUM_16`. -/
theorem is_witness_program_pushSlice (b : Bytes) :
    is_witness_program (pushSlice b) = false := by
  rcases pushSlice_cases b with ⟨he, hl⟩ | ⟨t, he⟩ | ⟨t, he⟩ | ⟨t, he⟩ <;> rw [he]
  · by_cases hz : b.length = 0
    · have hb : b = [] := List.length_eq_zero.mp hz
      subst hb
      simp [is_witness_program]
    · have h0 : (b.length == 0) = false := beq_eq_false_iff_ne.mpr hz
      have h81 : decide (81 ≤ b.length) = false := by simp; omega
      simp [is_witness_program, h0, h81]
  · simp [is_witness_program]
  · simp [is_witness_program]
  · simp [is_witness_program]

/-- `Address::from_script` recognizes no script that `derive_address`
builds: a bare data push matches no address template. -/
theorem from_script_pushSlice (b : Bytes) (n : Network) :
    Address.from_script (pushSlice b) n = none := by
  simp [Address.from_script, is_p2pkh_pushSlice, is_p2sh_pushSlice,
    is_witness_program_pushSlice]

/-- A data push adds at most five bytes of length prefix. -/
theorem pushSlice_length_le (b : Bytes) : (pushSlice b).length ≤ b.length + 5 := by
  simp only [pushSlice]
  split_ifs <;> simp

/-- Inversion of a successful spending-transaction construction: the
redeem string decoded, the prior transaction had a first output whose
value covers the amount, and the result is the fully determined
transaction literal. -/
theorem construct_spending_ok_elim (prev : Transaction) (redeem : String)
    (amount : Nat) (change : Address) (tx : Transaction)
    (hok : construct_spending_transaction prev redeem amount change = .ok tx) :
    ∃ rb o0 rest, hexDecode redeem = some rb ∧ prev.output = o0 :: rest ∧
      amount ≤ o0.value ∧
      tx = { version := 1, lock_time := 0,
             input := [{ previous_output := { txid := prev.txid, vout := 0 },
                         script_sig := pushSlice rb, sequence := 4294967295,
                         witness := [] }],
             output := [{ value := amount, script_pubkey := change.script_pubkey },
                        { value := o0.value - amount,
                          script_pubkey := o0.script_pubkey }] } := by
  simp only [construct_spending_transaction] at hok
  split at hok
  · exact absurd hok (by simp)
  · rename_i rb hd
    split at hok
    · exact absurd hok (by simp)
    · rename_i o0 rest hp
      split at hok
      · rename_i hle
        exact ⟨rb, o0, rest, hd, hp, hle, (Except.ok.inj hok).symm⟩
      · exact absurd hok (by simp)

/-! ### Claims -/

/-- C1: for the spec's end-to-end preimage the script builder emits the
`OP_SHA256 .. OP_EQUAL` string around the fixed sighash-derived hex, and
that embedded digest is not the ledger's SHA-256 hash of the decoded
preimage bytes — the digest does not come from the preimage at all. -/
theorem c1_redeem_digest_is_not_preimage_hash :
    generate_redeem_script "427472757374204275696c64657273" defaultTransaction =
      .ok ("OP_SHA256 " ++ sighash_lock_hex ++ " OP_EQUAL") ∧
    hexDecode sighash_lock_hex ≠
      some (sha256 ((hexDecode "427472757374204275696c64657273").getD [])) := by
  exact ⟨by decide, by decide⟩

/-- C2: on a prior transaction with no outputs the spending builder aborts
with an out-of-bounds index, and on a spend amount exceeding the first
output's value it aborts with a subtraction overflow — Rust panics, not
the typed `NoPriorOutput` / `InsufficientFunds` errors the claim names;
no transaction is produced in either case. -/
theorem c2_spending_failures_are_panics :
    construct_spending_transaction defaultTransaction "aa" 5000 sampleAddress =
      .error .indexOutOfBounds ∧
    construct_spending_transaction sampleFundingTx "aa" 60000 sampleAddress =
      .error .subOverflow := by
  exact ⟨by decide, by decide⟩

/-- C3: whenever the spending builder returns a transaction — the prior
transaction has a first output, the spend amount does not exceed its
value — the returned transaction's output values sum to exactly the prior
first output's value. -/
theorem c3_spending_value_conservation (prev : Transaction) (redeem : String)
    (amount : Nat) (change : Address) (tx : Transaction) (o0 : TxOut)
    (rest : List TxOut) (hout : prev.output = o0 :: rest) (hle : amount ≤ o0.value)
    (hok : construct_spending_transaction prev redeem amount change = .ok tx) :
    (tx.output.map TxOut.value).sum = o0.value := by
  obtain ⟨rb, o0', rest', hd, hout', hle', htx⟩ :=
    construct_spending_ok_elim prev redeem amount change tx hok
  rw [hout] at hout'
  injection hout' with h1 h2
  subst h1
  subst htx
  simp only [List.map_cons, List.map_nil, List.sum_cons, List.sum_nil]
  omega

/-- Witness for C3 at the end-to-end scenario's concrete inputs. -/
theorem c3_spending_value_conservation_witness :
    (sampleSpendingTx.output.map TxOut.value).sum = 50000 :=
  c3_spending_value_conservation sampleFundingTx "aa" 10000 sampleAddress
    sampleSpendingTx { value := 50000, script_pubkey := sampleAddress.script_pubkey }
    [] (by decide) (by decide) (by decide)

/-- C4: the funding builder returns a transaction with no inputs, exactly
one output carrying the given amount and the target address's script,
version 1 and zero lock time, for every address and amount. -/
theorem c4_construct_transaction_shape (target_address : Address) (amount : Nat) :
    (construct_transaction target_address amount).input = [] ∧
    (construct_transaction target_address amount).output =
      [{ value := amount, script_pubkey := target_address.script_pubkey }] ∧
    (construct_transaction target_address amount).version = 1 ∧
    (construct_transaction target_address amount).lock_time = 0 :=
  ⟨rfl, rfl, rfl, rfl⟩

/-- C5: under the success conditions (valid redeem hex, a prior first
output covering the amount) the spending builder returns exactly one
input referencing the prior transaction's identifier at index 0 with the
decoded redeem bytes pushed as unlocking data and the default sequence
number, a payout output to the change address's script, and a residual
output with the prior first output's script. -/
theorem c5_spending_transaction_shape (prev : Transaction) (redeem : String)
    (amount : Nat) (change : Address) (rb : Bytes) (o0 : TxOut) (rest : List TxOut)
    (hd : hexDecode redeem = some rb) (hout : prev.output = o0 :: rest)
    (hle : amount ≤ o0.value) :
    construct_spending_transaction prev redeem amount change =
      .ok { version := 1, lock_time := 0,
            input := [{ previous_output := { txid := prev.txid, vout := 0 },
                        script_sig := pushSlice rb, sequence := 4294967295,
                        witness := [] }],
            output := [{ value := amount, script_pubkey := change.script_pubkey },
                       { value := o0.value - amount,
                         script_pubkey := o0.script_pubkey }] } := by
  simp only [construct_spending_transaction, hd, hout]
  rw [if_pos hle]

/-- Witness for C5 at the end-to-end scenario's concrete inputs. -/
theorem c5_spending_transaction_shape_witness :
    construct_spending_transaction sampleFundingTx "aa" 10000 sampleAddress =
      .ok { version := 1, lock_time := 0,
            input := [{ previous_output := { txid := sampleFundingTx.txid, vout := 0 },
                        script_sig := pushSlice [170], sequence := 4294967295,
                        witness := [] }],
            output := [{ value := 10000, script_pubkey := sampleAddress.script_pubkey },
                       { value := 40000,
                         script_pubkey := sampleAddress.script_pubkey }] } :=
  c5_spending_transaction_shape sampleFundingTx "aa" 10000 sampleAddress [170]
    { value := 50000, script_pubkey := sampleAddress.script_pubkey } []
    (by decide) (by decide) (by decide)

/-- C6: every transaction built by either assembler round trips through
consensus serialization.  The zero-input funding transaction is
serialized in BIP141 form (marker and flag, since the encoder seeds
`have_witness` with `input.is_empty()`), which the decoder reads back
exactly; the single-input spending transaction uses the legacy form. -/
theorem c6_assembler_roundtrip (target_address : Address) (amount : Nat)
    (prev : Transaction) (redeem : String) (spend : Nat) (change : Address)
    (tx : Transaction) (hamt : amount < 18446744073709551616)
    (htgt : target_address.script_pubkey.length < 18446744073709551616)
    (hok : construct_spending_transaction prev redeem spend change = .ok tx)
    (hout : ∀ o ∈ prev.output, o.value < 18446744073709551616 ∧
      o.script_pubkey.length < 18446744073709551616)
    (hchg : change.script_pubkey.length < 18446744073709551616)
    (hred : redeem.length < 4294967296) :
    deserializeTx (serializeTx (construct_transaction target_address amount)) =
      .ok (construct_transaction target_address amount) ∧
    deserializeTx (serializeTx tx) = .ok tx := by
  constructor
  · apply deserializeTx_serializeTx_empty
    · rfl
    · simp [construct_transaction]
    · simp [construct_transaction]
    · simp [construct_transaction]
    · intro o ho
      simp only [construct_transaction, List.mem_singleton] at ho
      subst ho
      exact ⟨hamt, htgt⟩
  · obtain ⟨rb, o0, rest, hd, hp, hle, htx⟩ :=
      construct_spending_ok_elim prev redeem spend change tx hok
    have ho0 := hout o0 (by rw [hp]; exact List.mem_cons_self o0 rest)
    have hrb2 : 2 * rb.length = redeem.data.length :=
      hexDecodeChars_length redeem.data rb hd
    have hrdl : redeem.data.length = redeem.length := rfl
    have hps := pushSlice_length_le rb
    subst htx
    apply deserializeTx_serializeTx
    refine ⟨by norm_num, by norm_num, by simp, by simp, by simp, ?_, ?_⟩
    · intro i hi
      simp only [List.mem_singleton] at hi
      subst hi
      exact ⟨rfl, txid_length prev, by dsimp only; omega, by dsimp only; omega,
        by dsimp only; omega⟩
    · intro o ho
      simp only [List.mem_cons, List.not_mem_nil, or_false] at ho
      rcases ho with rfl | rfl
      · exact ⟨by dsimp only; omega, hchg⟩
      · exact ⟨by dsimp only; omega, ho0.2⟩

/-- Witness for C6 at the end-to-end scenario's concrete inputs: both the
funding and the spending transaction round trip. -/
theorem c6_assembler_roundtrip_witness :
    deserializeTx (serializeTx sampleFundingTx) = .ok sampleFundingTx ∧
    deserializeTx (serializeTx sampleSpendingTx) = .ok sampleSpendingTx :=
  c6_assembler_roundtrip sampleAddress 50000 sampleFundingTx "aa" 10000
    sampleAddress sampleSpendingTx (by decide) (by decide) (by decide) (by decide)
    (by decide) (by decide)

/-- C7: `derive_address` never yields an address for any input string —
either the argument is not valid hex and the decode unwrap aborts, or the
decoded bytes are wrapped into a bare data-push script that
`Address::from_script` does not recognize and the `unwrap` on `None`
aborts.  Determinism and injectivity of produced address texts are
claims about executions that cannot occur. -/
theorem c7_derive_address_never_returns (s : String) :
    derive_address s = .error .hexDecodeError ∨
    derive_address s = .error .unwrapNone := by
  cases hd : hexDecode s with
  | none => exact Or.inl (by simp [derive_address, hd])
  | some bs => exact Or.inr (by simp [derive_address, hd, from_script_pushSlice])

/-- C8: on malformed hex input every construction function panics via
`unwrap` (a process abort, embedded as `Panic.hexDecodeError`) rather than
returning a typed `InvalidHexEncoding` error; no script or transaction
is produced. -/
theorem c8_malformed_hex_panics :
    generate_redeem_script "zz" defaultTransaction = .error .hexDecodeError ∧
    derive_address "zz" = .error .hexDecodeError ∧
    construct_spending_transaction sampleFundingTx "zz" 1000 sampleAddress =
      .error .hexDecodeError :=
  ⟨by decide, by decide, by decide⟩

/-- Every successful `generate_redeem_script` call returns the textual
debug rendering around the fixed hex. -/
theorem generate_redeem_script_ok_eq (p : String) (t : Transaction) (rs : String)
    (h : generate_redeem_script p t = .ok rs) :
    rs = "OP_SHA256 " ++ sighash_lock_hex ++ " OP_EQUAL" := by
  simp only [generate_redeem_script] at h
  split at h
  · exact absurd h (by simp)
  · exact (Except.ok.inj h).symm

/-- C9: whatever redeem-script string the script builder hands over, the
workflow's address derivation receives the textual debug rendering
`OP_SHA256 .. OP_EQUAL` — not raw script bytes — and aborts while hex
decoding it (its first character `O` is not a hex digit). -/
theorem c9_workflow_derives_from_debug_rendering (p : String) (t : Transaction)
    (rs : String) (h : generate_redeem_script p t = .ok rs) :
    derive_address rs = .error .hexDecodeError := by
  rw [generate_redeem_script_ok_eq p t rs h]
  decide

/-- Witness for C9 at the orchestrator's concrete preimage and default
transaction. -/
theorem c9_workflow_derives_from_debug_rendering_witness :
    derive_address ("OP_SHA256 " ++ sighash_lock_hex ++ " OP_EQUAL") =
      .error .hexDecodeError :=
  c9_workflow_derives_from_debug_rendering "427472757374204275696c64657273"
    defaultTransaction ("OP_SHA256 " ++ sighash_lock_hex ++ " OP_EQUAL") (by decide)

/-- C10: the funding transaction has version 1 and zero lock time; every
transaction the spending builder returns also has version 1 and zero lock
time, and its single input carries sequence number 4294967295 and an
empty witness list. -/
theorem c10_fixed_fields (addr : Address) (amount : Nat) (prev : Transaction)
    (redeem : String) (amt : Nat) (change : Address) (tx : Transaction)
    (hok : construct_spending_transaction prev redeem amt change = .ok tx) :
    (construct_transaction addr amount).version = 1 ∧
    (construct_transaction addr amount).lock_time = 0 ∧
    tx.version = 1 ∧ tx.lock_time = 0 ∧
    ∃ i, tx.input = [i] ∧ i.sequence = 4294967295 ∧ i.witness = [] := by
  obtain ⟨rb, o0, rest, hd, hp, hle, htx⟩ :=
    construct_spending_ok_elim prev redeem amt change tx hok
  subst htx
  exact ⟨rfl, rfl, rfl, rfl, _, rfl, rfl, rfl⟩

/-- Witness for C10 at the end-to-end scenario's concrete inputs. -/
theorem c10_fixed_fields_witness :
    (construct_transaction sampleAddress 50000).version = 1 ∧
    (construct_transaction sampleAddress 50000).lock_time = 0 ∧
    sampleSpendingTx.version = 1 ∧ sampleSpendingTx.lock_time = 0 ∧
    ∃ i, sampleSpendingTx.input = [i] ∧ i.sequence = 4294967295 ∧
      i.witness = [] :=
  c10_fixed_fields sampleAddress 50000 sampleFundingTx "aa" 10000 sampleAddress
    sampleSpendingTx (by decide)
